/-
  Verification of the go-spring bean-assembly core
  (spring-core/spring-context-default.go) against its design document.

  The Go source is shallowly embedded: reflect.Type values become numeric
  type identifiers, bean values become numeric value identifiers, Go maps
  become association lists (with map iteration order treated as an
  arbitrary permutation of the entries), Go panics become the error side
  of Except carrying the mutable state as it stood when the panic was
  raised (the wiring stack is shared mutable state that a Go panic does
  not unwind, which is how AutoWireBeans can log the dependency path from
  its recover handler), and the reflection-driven field traversal of
  wireObjectBean is abstracted into recorded injection events.
-/
import Mathlib

namespace SpringCore

/-- Modelled from the spec: the bean lifecycle states (the beanStatus
constants are declared outside the embedded file; spec section 4.4 gives
the state machine Default, Resolving, Resolved, Wiring, Wired, with
Deleted reachable from the first three; Default is the initial and least
state, so the source guard status greater than Default is modelled as
status not equal to Default). -/
inductive BeanStatus where
  | default
  | resolving
  | resolved
  | wiring
  | wired
  | deleted
deriving Repr, DecidableEq

/-- Modelled from the spec: the three provider kinds of a BeanDefinition
(objectBean, constructorBean, methodBean are declared outside the embedded
file; the embedded file dispatches on them by a type switch). -/
inductive SpringBeanKind where
  | object
  | constructor
  | method
deriving Repr, DecidableEq

/-- Shallow embedding of a BeanDefinition together with the outcomes of
the external collaborators consulted while processing it: matches is the
result of the conditional-registration predicate Matches(ctx), dependsOn
holds the outcome of FindBean for each dependsOn selector (none meaning
the selector resolved to no bean), exports pairs each export type with
the outcome of the Implements check, fnErr is the non-nil second return
value of a constructor or method factory when present, fnRetNil says the
factory returned a nil primary value, and fields are the names of the
struct fields that field-level autowiring walks. -/
structure BeanDef where
  name : String
  beanId : String
  typeId : Nat
  kind : SpringBeanKind
  status : BeanStatus
  primary : Bool
  matchesCtx : Bool
  dependsOn : List (Option Nat)
  parent : Nat
  fields : List String
  hasInit : Bool
  fnErr : Option String
  fnRetNil : Bool
  exports : List (Nat × Bool)
  value : Nat
deriving Repr, DecidableEq

/-- Default bean used for out-of-range index reads; it matches nothing,
so resolving it deletes it without touching the cache. -/
def dfltBean : BeanDef :=
  { name := "", beanId := "", typeId := 0, kind := SpringBeanKind.object,
    status := BeanStatus.default, primary := false, matchesCtx := false,
    dependsOn := [], parent := 0, fields := [], hasInit := false,
    fnErr := none, fnRetNil := false, exports := [], value := 0 }

/-- Observable effects of a wiring session: wiring-stack watcher events
(push and pop) and the abstracted reflection effects (field injection,
factory invocation, init callback). -/
inductive WireEvent where
  | push (i : Nat)
  | pop (i : Nat)
  | injectField (i : Nat) (f : String)
  | callFactory (i : Nat)
  | callInit (i : Nat)
deriving Repr, DecidableEq

/-- Errors raised (as Go panics) by the embedded operations. -/
inductive WireError where
  | deletedBean (beanId : String)
  | circularDependency
  | dependsOnNotFound
  | constructorError (msg : String)
  | nilBean
  | exportMismatch (typeId : Nat)
  | fuelExhausted
deriving Repr, DecidableEq

/-- Mutable state of a defaultSpringContext plus the wiring session
working on it: the heap of BeanDefinitions (indices are bean
identities, matching the pointer identity of the Go objects), the
type-indexed bean cache (association list from type id to the bean
indices stored for that type, in insertion order), the wiring stack and
the event trace. -/
structure CtxState where
  beans : List BeanDef
  cache : List (Nat × List Nat)
  stack : List Nat
  events : List WireEvent
deriving Repr, DecidableEq

/-- Initial, empty context. -/
def initCtx : CtxState :=
  { beans := [], cache := [], stack := [], events := [] }

/-- Read the bean stored at index i (heap dereference). -/
def beanAt (s : CtxState) (i : Nat) : BeanDef :=
  s.beans.getD i dfltBean

/-- Set the status of the bean at index i (mutation through the shared
pointer in the Go source). -/
def setStatus (s : CtxState) (i : Nat) (st : BeanStatus) : CtxState :=
  match s.beans.get? i with
  | some bd => { s with beans := s.beans.set i { bd with status := st } }
  | none => s

/-- Record an observable event. -/
def emit (s : CtxState) (e : WireEvent) : CtxState :=
  { s with events := s.events ++ [e] }

/-- Embeds wiringStack.pushBack: appends the frame and notifies the
watchers (recorded as a push event). -/
def pushStack (s : CtxState) (i : Nat) : CtxState :=
  { s with stack := s.stack ++ [i], events := s.events ++ [WireEvent.push i] }

/-- Embeds wiringStack.popBack: removes the last frame and notifies the
watchers (recorded as a pop event). -/
def popStack (s : CtxState) : CtxState :=
  match s.stack.getLast? with
  | some i => { s with stack := s.stack.dropLast,
                       events := s.events ++ [WireEvent.pop i] }
  | none => s

/-- Association-list lookup used for the cache map and the beanKey map. -/
def alookup {α β : Type} [DecidableEq α] (k : α) : List (α × β) → Option β
  | [] => none
  | (k0, v) :: rest => if k0 = k then some v else alookup k rest

/-- Embeds defaultBeanAssembly.getCacheItem with the receiver state made
explicit: returns the cached item for the type, or a freshly built empty
item when the type is unknown; the cache map itself is returned
unchanged (the fresh item is not inserted into the map). -/
def getCacheItemSt (cache : List (Nat × List Nat)) (t : Nat) :
    List Nat × List (Nat × List Nat) :=
  match alookup t cache with
  | some c => (c, cache)
  | none => ([], cache)

/-- Embeds defaultSpringContext.findCacheItem: returns the cache after
ensuring an entry for the type exists, creating and storing an empty
entry when the type is unknown. -/
def findCacheItemC (cache : List (Nat × List Nat)) (t : Nat) :
    List (Nat × List Nat) :=
  match alookup t cache with
  | some _ => cache
  | none => cache ++ [(t, [])]

/-- Embeds beanCacheItem.store on the entry for type t inside the cache
map (the Go code appends through the pointer returned by
findCacheItem). -/
def cacheItemStore : List (Nat × List Nat) → Nat → Nat → List (Nat × List Nat)
  | [], _, _ => []
  | (k0, l) :: rest, t, i =>
    if k0 = t then (k0, l ++ [i]) :: rest
    else (k0, l) :: cacheItemStore rest t i

/-- Embeds the findCacheItem-then-store sequence of resolveBean on a
context state. -/
def cacheStore (s : CtxState) (t : Nat) (i : Nat) : CtxState :=
  { s with cache := cacheItemStore (findCacheItemC s.cache t) t i }

theorem alookup_append_self {α β : Type} [DecidableEq α]
    (cache : List (α × β)) (t : α)
    (v : β) (h : alookup t cache = none) :
    alookup t (cache ++ [(t, v)]) = some v := by
  induction cache with
  | nil => simp [alookup]
  | cons p rest ih =>
    simp only [alookup, List.cons_append]
    by_cases hp : p.fst = t
    · simp only [alookup, hp, if_pos rfl] at h
      exact absurd h (by simp)
    · simp only [alookup] at h
      rw [if_neg hp] at h ⊢
      exact ih h

theorem alookup_cacheItemStore (cache : List (Nat × List Nat)) (t : Nat)
    (i : Nat) (c : List Nat) (h : alookup t cache = some c) :
    alookup t (cacheItemStore cache t i) = some (c ++ [i]) := by
  induction cache with
  | nil => simp [alookup] at h
  | cons p rest ih =>
    obtain ⟨k0, v⟩ := p
    by_cases hp : k0 = t
    · subst hp
      simp only [alookup, if_pos rfl] at h
      injection h with h
      subst h
      simp [cacheItemStore, alookup]
    · simp only [alookup, if_neg hp] at h
      simp only [cacheItemStore, if_neg hp, alookup]
      exact ih h

/-- Result of a getBeanValue call that did not panic: either the
nullable not-found case (the Go function returns false) or a selected
bean (the Go function wires the selected bean through
wireBeanDefinition, assigns its value into the target slot and returns
true). -/
inductive LookupOutcome where
  | notFound
  | selected (bd : BeanDef)
deriving Repr, DecidableEq

/-- Panics raised by getBeanValue: the receiver is not a reference type,
a non-nullable selector matched nothing, several candidates are flagged
primary, or several candidates exist with no primary tie-break; the
ambiguous errors carry the candidate lists rendered into the Go error
message. -/
inductive LookupError where
  | invalidTarget
  | beanNotFound
  | ambiguousPrimary (cands : List BeanDef)
  | ambiguousBean (cands : List BeanDef)
deriving Repr, DecidableEq

/-- Candidate set computed by getBeanValue from the cache item of the
receiver type: beans whose value is not the value being injected into,
whose type is assignable to the receiver type and which match the
parsed (typeName, beanName) selector; the outcomes of the reflection
predicates AssignableTo and Match are taken as boolean functions, and
parentValue is none when the caller passed the zero reflect.Value. -/
def lookupCandidates (item : List BeanDef)
    (assignable matchSel : BeanDef → Bool) (pv : Option Nat) :
    List BeanDef :=
  item.filter fun b =>
    decide (some b.value ≠ pv) && assignable b && matchSel b

/-- Candidates flagged primary, in candidate order. -/
def lookupPrimary (item : List BeanDef)
    (assignable matchSel : BeanDef → Bool) (pv : Option Nat) :
    List BeanDef :=
  (lookupCandidates item assignable matchSel pv).filter fun b => b.primary

/-- Embeds getBeanValue (spring-context-default.go lines 146-212): the
receiver must be a reference type; zero candidates is non-fatal only for
a nullable selector; more than one primary candidate panics listing the
primary candidates; zero primary candidates with more than one plain
candidate panics listing all candidates; otherwise the unique primary
(or the unique plain candidate) is selected. -/
def getBeanValueModel (isRefTarget : Bool) (item : List BeanDef)
    (assignable matchSel : BeanDef → Bool) (nullable : Bool)
    (pv : Option Nat) : Except LookupError LookupOutcome :=
  if isRefTarget = false then Except.error LookupError.invalidTarget else
  match lookupCandidates item assignable matchSel pv,
        lookupPrimary item assignable matchSel pv with
  | [], _ =>
      if nullable then Except.ok LookupOutcome.notFound
      else Except.error LookupError.beanNotFound
  | r :: rs, [] =>
      if rs.isEmpty then Except.ok (LookupOutcome.selected r)
      else Except.error (LookupError.ambiguousBean (r :: rs))
  | _ :: _, [p] => Except.ok (LookupOutcome.selected p)
  | _ :: _, p :: q :: ps =>
      Except.error (LookupError.ambiguousPrimary (p :: q :: ps))

/-- Embeds the nullable-marker normalization at the top of
GetBeanByName (lines 678-681): an empty selector, or one that does not
already end in the question-mark marker, gets the marker appended.
Selector strings are embedded as character lists. -/
def ensureNullable (beanId : List Char) : List Char :=
  if beanId = [] ∨ beanId.getLast? ≠ some '?' then beanId ++ ['?']
  else beanId

/-- Modelled from the spec: ParseBeanId is declared outside the embedded
file; per spec sections 4.1 and 4.4 a selector may end in a marker
making not-found non-fatal, so the nullable component of ParseBeanId is
exactly whether the selector ends with the question mark. The typeName
and beanName components are consumed only through the Match predicate,
which is abstracted as a boolean function on beans. -/
def parseBeanIdNullable (beanId : List Char) : Bool :=
  decide (beanId.getLast? = some '?')

/-- Embeds GetBeanByName (lines 675-694): normalizes the selector to be
nullable, then delegates to getBeanValue with the zero parent value;
the boolean result is the found flag. -/
def getBeanByNameModel (beanId : List Char) (isRef : Bool)
    (item : List BeanDef) (assignable matchSel : BeanDef → Bool) :
    Except LookupError Bool :=
  match getBeanValueModel isRef item assignable matchSel
      (parseBeanIdNullable (ensureNullable beanId)) none with
  | Except.ok LookupOutcome.notFound => Except.ok false
  | Except.ok (LookupOutcome.selected _) => Except.ok true
  | Except.error e => Except.error e

/-- Embeds GetBean (lines 670-672): delegates to GetBeanByName with the
bare nullable selector. -/
def getBeanModel (isRef : Bool) (item : List BeanDef)
    (assignable matchSel : BeanDef → Bool) : Except LookupError Bool :=
  getBeanByNameModel ['?'] isRef item assignable matchSel

/-- Embeds the result sequence built by collectBeans (lines 215-274):
first the elements of every cached sequence-typed bean are concatenated
by the copy-grow loop (slice items are given by their element value
lists, in cache order), then every cached singleton bean of the element
type is appended, in cache order; the boolean is whether anything was
collected, and an empty result is returned as false rather than a
panic. The per-element recursive wiring performed while copying is not
represented here. -/
def collectBeansModel (sliceItems : List (List Nat)) (singles : List Nat) :
    Bool × List Nat :=
  let ev := sliceItems.foldl (fun acc d => acc ++ d) []
  let ev2 := singles.foldl (fun acc v => acc ++ [v]) ev
  if ev2.length > 0 then (true, ev2) else (false, ev2)

theorem foldl_append_eq_join (l : List (List Nat)) (acc : List Nat) :
    l.foldl (fun a d => a ++ d) acc = acc ++ l.flatten := by
  induction l generalizing acc with
  | nil => simp
  | cons d rest ih => simp [ih, List.append_assoc]

theorem foldl_append_singleton (l : List Nat) (acc : List Nat) :
    l.foldl (fun a v => a ++ [v]) acc = acc ++ l := by
  induction l generalizing acc with
  | nil => simp
  | cons v rest ih => simp [ih]

/-- Embeds the dependsOn loop of wireBeanDefinition (lines 325-331):
each selector is resolved through FindBean (outcome recorded in the
bean), a missing bean panics, a found bean is wired recursively through
the procedure w (the recursive wireBeanDefinition at the remaining
fuel). -/
def wireDepsAux
    (w : CtxState → Nat → Except (WireError × CtxState) CtxState) :
    CtxState → List (Option Nat) → Except (WireError × CtxState) CtxState
  | s, [] => Except.ok s
  | s, none :: _ => Except.error (WireError.dependsOnNotFound, s)
  | s, some j :: rest =>
    match w s j with
    | Except.ok s1 => wireDepsAux w s1 rest
    | Except.error e => Except.error e

/-- Embeds wireObjectBean (lines 364-450): the reflection-driven walk
over the bean value's struct fields; the external value binding and the
per-field injections are abstracted into recorded injection events, one
per field. -/
def wireObjectBeanModel (s : CtxState) (i : Nat) (bd : BeanDef) :
    CtxState :=
  bd.fields.foldl (fun s1 f => emit s1 (WireEvent.injectField i f)) s

/-- The fresh BeanDefinition built by wireFunctionBean around the value
returned by the factory (lines 486-497): it keeps the name and
provenance of the declaring bean and wraps the value as an object bean
with status Default. -/
def wrapObjectBean (bd : BeanDef) : BeanDef :=
  { name := bd.name, beanId := bd.beanId, typeId := bd.typeId,
    kind := SpringBeanKind.object, status := BeanStatus.default,
    primary := false, matchesCtx := true, dependsOn := [], parent := 0,
    fields := bd.fields, hasInit := false, fnErr := none,
    fnRetNil := false, exports := [], value := bd.value }

/-- Embeds wireFunctionBean (lines 453-500): the factory is invoked; a
two-value return whose second value is a non-nil error panics with the
constructor error; a nil returned primary value panics with the
nil-bean error; otherwise the returned value is wrapped as a fresh
object bean (allocated at the end of the heap) and recursively wired
through w as a delegate definition. -/
def wireFunctionBeanAux
    (w : CtxState → Nat → Except (WireError × CtxState) CtxState)
    (s : CtxState) (i : Nat) (bd : BeanDef) :
    Except (WireError × CtxState) CtxState :=
  let s1 := emit s (WireEvent.callFactory i)
  match bd.fnErr with
  | some msg => Except.error (WireError.constructorError msg, s1)
  | none =>
    if bd.fnRetNil then Except.error (WireError.nilBean, s1)
    else
      w { s1 with beans := s1.beans ++ [wrapObjectBean bd] }
        s1.beans.length

/-- Embeds wireBeanDefinition (lines 299-361), with fuel bounding the
recursion depth: a deleted bean panics; a wired bean is a no-op; the
bean is pushed on the wiring stack; a bean already Wiring is a detected
cycle, tolerated only for an object bean (returning with the frame
still pushed) and a panic otherwise; then the status becomes Wiring,
the dependsOn beans and (for a method bean) the parent are wired first,
the provider is dispatched, the init callback runs, the frame is popped
and the status becomes Wired. -/
def wire : Nat → CtxState → Nat → Except (WireError × CtxState) CtxState
  | 0, s, _ => Except.error (WireError.fuelExhausted, s)
  | Nat.succ fuel, s, i =>
    let bd := beanAt s i
    if bd.status = BeanStatus.deleted then
      Except.error (WireError.deletedBean bd.beanId, s)
    else if bd.status = BeanStatus.wired then Except.ok s
    else
      let s1 := pushStack s i
      if bd.status = BeanStatus.wiring then
        if bd.kind = SpringBeanKind.object then Except.ok s1
        else Except.error (WireError.circularDependency, s1)
      else
        let s2 := setStatus s1 i BeanStatus.wiring
        match wireDepsAux (wire fuel) s2 bd.dependsOn with
        | Except.error e => Except.error e
        | Except.ok s3 =>
          match (if bd.kind = SpringBeanKind.method then
                   wire fuel s3 bd.parent
                 else Except.ok s3) with
          | Except.error e => Except.error e
          | Except.ok s4 =>
            match (match bd.kind with
                   | SpringBeanKind.object =>
                       Except.ok (wireObjectBeanModel s4 i bd)
                   | SpringBeanKind.constructor =>
                       wireFunctionBeanAux (wire fuel) s4 i bd
                   | SpringBeanKind.method =>
                       wireFunctionBeanAux (wire fuel) s4 i bd) with
            | Except.error e => Except.error e
            | Except.ok s5 =>
              let s6 := if bd.hasInit then emit s5 (WireEvent.callInit i)
                        else s5
              let s7 := popStack s6
              Except.ok (setStatus s7 i BeanStatus.wired)

/-- Embeds deleteBeanDefinition (lines 599-603): marks the bean
Deleted; the removal of its key from the bean map does not affect the
heap entry or the cache. -/
def deleteBeanDefinition (s : CtxState) (i : Nat) : CtxState :=
  setStatus s i BeanStatus.deleted

/-- Embeds the export loop of resolveBean (lines 831-840): every export
type whose Implements check passed is stored in its cache entry; a
mismatch panics. -/
def storeExports (i : Nat) :
    CtxState → List (Nat × Bool) → Except (WireError × CtxState) CtxState
  | s, [] => Except.ok s
  | s, (t, impl) :: rest =>
    if impl then storeExports i (cacheStore s t i) rest
    else Except.error (WireError.exportMismatch t, s)

/-- The tail of resolveBean after the method-parent cascade (lines
821-842): a failed Matches check deletes the bean, otherwise the bean
is stored in the cache under its concrete type and every export type,
and its status becomes Resolved. -/
def resolveBeanBody (s : CtxState) (i : Nat) (bd : BeanDef) :
    Except (WireError × CtxState) CtxState :=
  if bd.matchesCtx = false then Except.ok (deleteBeanDefinition s i)
  else
    let s1 := cacheStore s bd.typeId i
    match storeExports i s1 bd.exports with
    | Except.error e => Except.error e
    | Except.ok s2 => Except.ok (setStatus s2 i BeanStatus.resolved)

/-- Embeds resolveBean (lines 802-843), with fuel bounding the
method-parent chain: a bean whose status moved past Default is left
alone; the status becomes Resolving; a method bean first resolves its
parent and is cascade-deleted when the parent ended up Deleted; then
the body runs the Matches check and the cache insertion. -/
def resolveBean :
    Nat → CtxState → Nat → Except (WireError × CtxState) CtxState
  | 0, s, _ => Except.error (WireError.fuelExhausted, s)
  | Nat.succ fuel, s, i =>
    let bd := beanAt s i
    if bd.status ≠ BeanStatus.default then Except.ok s
    else
      let s1 := setStatus s i BeanStatus.resolving
      if bd.kind = SpringBeanKind.method then
        match resolveBean fuel s1 bd.parent with
        | Except.error e => Except.error e
        | Except.ok s2 =>
          if (beanAt s2 bd.parent).status = BeanStatus.deleted then
            Except.ok (deleteBeanDefinition s2 i)
          else resolveBeanBody s2 i bd
      else resolveBeanBody s1 i bd

/-- Association-list insert with overwrite, embedding assignment into
the beanId-keyed Go map built by the Sort branch of AutoWireBeans. -/
def sinsert : List (String × BeanDef) → String → BeanDef →
    List (String × BeanDef)
  | [], k, v => [(k, v)]
  | (k0, v0) :: rest, k, v =>
    if k0 = k then (k0, v) :: rest else (k0, v0) :: sinsert rest k v

/-- Embeds the beanKeyMap construction of AutoWireBeans (lines 938-941)
over an iteration sequence of the bean map: for each bean, its BeanId
is mapped to it (the Go code maps BeanId to beanKey and looks the bean
back up through ctx.beanMap, which composes to the bean itself; a later
bean with an equal BeanId overwrites an earlier one). -/
def beanKeyMapOf (it : List BeanDef) : List (String × BeanDef) :=
  it.foldl (fun m bd => sinsert m bd.beanId bd) []

/-- Embeds the wiring loop of AutoWireBeans (lines 937-960), returning
the sequence of beans passed to wireBeanDefinition, in order. Go map
iteration order is unspecified, so the loop is modeled over an
arbitrary iteration sequence of the live bean definitions (any
permutation of the registration sequence). With Sort unset the beans
are wired in iteration order; with Sort set the beanKeyMap is built,
its keys are sorted lexicographically (sort.Strings), and each sorted
key is looked back up. -/
def autoWireSequence (it : List BeanDef) (sortFlag : Bool) :
    List BeanDef :=
  if sortFlag then
    let m := beanKeyMapOf it
    let beanIds := m.map Prod.fst
    let sorted := beanIds.mergeSort (fun a b => a ≤ b)
    sorted.filterMap (fun id => alookup id m)
  else it

/-- One mutation of the context state by the operations of the embedded
file: registering a BeanDefinition (status Default, the cache is not
touched), a resolveBean call (normal or panicking) and a
wireBeanDefinition call (normal or panicking, reached from
AutoWireBeans, WireBean, GetBean, FindBean and CollectBeans). -/
inductive CtxStep : CtxState → CtxState → Prop
  | register (s : CtxState) (bd : BeanDef)
      (h : bd.status = BeanStatus.default) :
      CtxStep s { s with beans := s.beans ++ [bd] }
  | resolveOk (s : CtxState) (fuel i : Nat) (s1 : CtxState)
      (h : resolveBean fuel s i = Except.ok s1) : CtxStep s s1
  | resolveErr (s : CtxState) (fuel i : Nat) (e : WireError)
      (s1 : CtxState)
      (h : resolveBean fuel s i = Except.error (e, s1)) : CtxStep s s1
  | wireOk (s : CtxState) (fuel i : Nat) (s1 : CtxState)
      (h : wire fuel s i = Except.ok s1) : CtxStep s s1
  | wireErr (s : CtxState) (fuel i : Nat) (e : WireError) (s1 : CtxState)
      (h : wire fuel s i = Except.error (e, s1)) : CtxStep s s1

/-- Context states reachable from the empty context through the
operations above. -/
inductive Reachable : CtxState → Prop
  | init : Reachable initCtx
  | step {s s1 : CtxState} : Reachable s → CtxStep s s1 → Reachable s1

/-- All bean indices stored in the cache, across every type entry. -/
def cacheMembers (s : CtxState) : List Nat :=
  (s.cache.map Prod.snd).flatten

/-- Invariant of the Bean Cache: every cached bean index is in range
and refers to a bean that is past Default and not Deleted. -/
def CacheInv (s : CtxState) : Prop :=
  ∀ i ∈ cacheMembers s, i < s.beans.length ∧
    (beanAt s i).status ≠ BeanStatus.default ∧
    (beanAt s i).status ≠ BeanStatus.deleted

/-- Frame of a resolveBean call relative to its starting state: the
heap keeps its length, beans whose status had moved past Default are
untouched, and every cache member is either an old member or a bean
that was still at Default when the call started. -/
def ResolveFrame (s s1 : CtxState) : Prop :=
  s1.beans.length = s.beans.length ∧
  (∀ j, (beanAt s j).status ≠ BeanStatus.default →
     beanAt s1 j = beanAt s j) ∧
  (∀ j, j ∈ cacheMembers s1 →
     j ∈ cacheMembers s ∨ (beanAt s j).status = BeanStatus.default)

/-- C5 counterexample: the assembly-side get operation (getCacheItem,
lines 138-143) does not store anything in the cache map: starting from
the empty cache, getting type 0 returns the empty item but afterwards
the cache map still has no entry for type 0, contradicting the claimed
lazily-created-and-stored entry. -/
theorem getCacheItem_no_insert_counterexample :
    (getCacheItemSt [] 0).fst = [] ∧
    (getCacheItemSt [] 0).snd = [] ∧
    ¬ alookup 0 (getCacheItemSt [] 0).snd = some [] := by
  refine ⟨rfl, rfl, ?_⟩
  intro h
  simp [getCacheItemSt, alookup] at h

/-- C5 (amended): for a type not yet present in the cache, the
assembly's getCacheItem returns an empty sequence without failing and
without modifying the cache map, while the context's findCacheItem
lazily creates and stores an empty entry for that type, so that a later
store through the returned item appends to that same entry. -/
theorem cache_lazy_entry_spec (cache : List (Nat × List Nat)) (t i : Nat)
    (h : alookup t cache = none) :
    (getCacheItemSt cache t).fst = [] ∧
    (getCacheItemSt cache t).snd = cache ∧
    alookup t (findCacheItemC cache t) = some [] ∧
    alookup t (cacheItemStore (findCacheItemC cache t) t i) =
      some [i] := by
  have hf : findCacheItemC cache t = cache ++ [(t, [])] := by
    simp [findCacheItemC, h]
  have h1 : alookup t (findCacheItemC cache t) = some [] := by
    rw [hf]; exact alookup_append_self cache t [] h
  refine ⟨?_, ?_, h1, ?_⟩
  · simp [getCacheItemSt, h]
  · simp [getCacheItemSt, h]
  · have := alookup_cacheItemStore (findCacheItemC cache t) t i [] h1
    simpa using this

theorem cache_lazy_entry_spec_witness :
    (getCacheItemSt [] 5).fst = [] ∧
    (getCacheItemSt [] 5).snd = [] ∧
    alookup 5 (findCacheItemC [] 5) = some [] ∧
    alookup 5 (cacheItemStore (findCacheItemC [] 5) 5 2) = some [2] :=
  cache_lazy_entry_spec [] 5 2 rfl

/-- C4: a getBeanValue lookup whose candidate set is empty returns
false (not-found, no panic) when the selector was nullable, and panics
with the bean-not-found error when it was not. -/
theorem getBeanValue_zero_candidates (item : List BeanDef)
    (assignable matchSel : BeanDef → Bool) (pv : Option Nat)
    (h : lookupCandidates item assignable matchSel pv = []) :
    getBeanValueModel true item assignable matchSel true pv =
      Except.ok LookupOutcome.notFound ∧
    getBeanValueModel true item assignable matchSel false pv =
      Except.error LookupError.beanNotFound := by
  constructor <;> simp [getBeanValueModel, h]

theorem getBeanValue_zero_candidates_witness :
    getBeanValueModel true [] (fun _ => true) (fun _ => true) true none =
      Except.ok LookupOutcome.notFound ∧
    getBeanValueModel true [] (fun _ => true) (fun _ => true) false none =
      Except.error LookupError.beanNotFound :=
  getBeanValue_zero_candidates [] (fun _ => true) (fun _ => true) none rfl

/-- C2: the disambiguation policy of getBeanValue over its computed
candidate set: two or more primary candidates panic with the
ambiguous-primary error listing the primary candidates; exactly one
primary candidate is selected (wherever it sits in the candidate
order); no primary candidate and two or more plain candidates panic
with the ambiguous-bean error listing all candidates; a unique
candidate is selected (the Go code then wires it through
wireBeanDefinition and assigns its value into the target slot, which
the selected outcome stands for). -/
theorem getBeanValue_disambiguation (item : List BeanDef)
    (assignable matchSel : BeanDef → Bool) (nullable : Bool)
    (pv : Option Nat) :
    (∀ p q ps,
       lookupPrimary item assignable matchSel pv = p :: q :: ps →
       getBeanValueModel true item assignable matchSel nullable pv =
         Except.error (LookupError.ambiguousPrimary (p :: q :: ps))) ∧
    (∀ p, lookupPrimary item assignable matchSel pv = [p] →
       getBeanValueModel true item assignable matchSel nullable pv =
         Except.ok (LookupOutcome.selected p)) ∧
    (∀ r rs, lookupPrimary item assignable matchSel pv = [] →
       lookupCandidates item assignable matchSel pv = r :: rs →
       rs ≠ [] →
       getBeanValueModel true item assignable matchSel nullable pv =
         Except.error (LookupError.ambiguousBean (r :: rs))) ∧
    (∀ c, lookupCandidates item assignable matchSel pv = [c] →
       getBeanValueModel true item assignable matchSel nullable pv =
         Except.ok (LookupOutcome.selected c)) := by
  refine ⟨?_, ?_, ?_, ?_⟩
  · intro p q ps hp
    rcases hC : lookupCandidates item assignable matchSel pv with _ | ⟨r, rs⟩
    · rw [lookupPrimary, hC] at hp
      simp at hp
    · simp [getBeanValueModel, hC, hp]
  · intro p hp
    rcases hC : lookupCandidates item assignable matchSel pv with _ | ⟨r, rs⟩
    · rw [lookupPrimary, hC] at hp
      simp at hp
    · simp [getBeanValueModel, hC, hp]
  · intro r rs hp hC hrs
    simp [getBeanValueModel, hC, hp, hrs]
  · intro c hC
    have hp : lookupPrimary item assignable matchSel pv =
        if c.primary then [c] else [] := by
      rw [lookupPrimary, hC]
      by_cases hcp : c.primary <;> simp [hcp]
    by_cases hcp : c.primary
    · rw [if_pos hcp] at hp
      simp [getBeanValueModel, hC, hp]
    · rw [if_neg hcp] at hp
      simp [getBeanValueModel, hC, hp]

theorem getBeanValue_disambiguation_witness :
    getBeanValueModel true
      [{ dfltBean with value := 2 },
       { dfltBean with value := 1, primary := true }]
      (fun _ => true) (fun _ => true) false none =
      Except.ok
        (LookupOutcome.selected
          { dfltBean with value := 1, primary := true }) :=
  (getBeanValue_disambiguation
      [{ dfltBean with value := 2 },
       { dfltBean with value := 1, primary := true }]
      (fun _ => true) (fun _ => true) false none).2.1
    { dfltBean with value := 1, primary := true } (by decide)

/-- C7: the sequence built by collectBeans has all sequence-sourced
elements (concatenated in cache order) before all singleton-sourced
elements (in cache order), its length is the combined length, and the
returned flag says whether anything was collected, with an empty result
reported as false rather than a panic. -/
theorem collectBeans_order (sliceItems : List (List Nat))
    (singles : List Nat) :
    (collectBeansModel sliceItems singles).snd =
      sliceItems.flatten ++ singles ∧
    (collectBeansModel sliceItems singles).snd.length =
      (sliceItems.map List.length).sum + singles.length ∧
    (collectBeansModel sliceItems singles).fst =
      decide ((collectBeansModel sliceItems singles).snd ≠ []) := by
  have hsnd : (collectBeansModel sliceItems singles).snd =
      sliceItems.flatten ++ singles := by
    simp only [collectBeansModel, foldl_append_eq_join,
      foldl_append_singleton, List.nil_append]
    split <;> rfl
  refine ⟨hsnd, ?_, ?_⟩
  · rw [hsnd]
    simp
  · rcases hE : sliceItems.flatten ++ singles with _ | ⟨x, xs⟩
    · have hf : (collectBeansModel sliceItems singles).fst = false := by
        simp only [collectBeansModel, foldl_append_eq_join,
          foldl_append_singleton, List.nil_append, hE]
        simp
      rw [hf, hsnd, hE]
      simp
    · have hf : (collectBeansModel sliceItems singles).fst = true := by
        simp only [collectBeansModel, foldl_append_eq_join,
          foldl_append_singleton, List.nil_append, hE]
        simp
      rw [hf, hsnd, hE]
      simp

/-- C10: GetBean and GetBeanByName normalize every selector to end in
the nullable marker, so a lookup through them that matches zero
candidates returns false instead of panicking with the bean-not-found
error, whatever selector the caller wrote. -/
theorem getBean_nullable_normalization (beanId : List Char)
    (item : List BeanDef) (assignable matchSel : BeanDef → Bool)
    (h : lookupCandidates item assignable matchSel none = []) :
    (ensureNullable beanId).getLast? = some '?' ∧
    getBeanByNameModel beanId true item assignable matchSel =
      Except.ok false ∧
    getBeanModel true item assignable matchSel = Except.ok false := by
  have hq : ∀ ids : List Char, (ensureNullable ids).getLast? = some '?' := by
    intro ids
    by_cases hc : ids = [] ∨ ids.getLast? ≠ some '?'
    · rw [ensureNullable, if_pos hc]
      simp
    · push_neg at hc
      rw [ensureNullable, if_neg (by push_neg; exact hc)]
      exact hc.2
  have hnul : ∀ ids : List Char,
      parseBeanIdNullable (ensureNullable ids) = true := by
    intro ids
    rw [parseBeanIdNullable, hq ids]
    simp
  have hlook : getBeanValueModel true item assignable matchSel true none =
      Except.ok LookupOutcome.notFound := by
    simp [getBeanValueModel, h]
  refine ⟨hq beanId, ?_, ?_⟩
  · rw [getBeanByNameModel, hnul beanId, hlook]
  · rw [getBeanModel, getBeanByNameModel, hnul, hlook]

theorem getBean_nullable_normalization_witness :
    (ensureNullable [Char.ofNat 120]).getLast? = some '?' ∧
    getBeanByNameModel [Char.ofNat 120] true []
      (fun _ => true) (fun _ => true) = Except.ok false ∧
    getBeanModel true [] (fun _ => true) (fun _ => true) =
      Except.ok false :=
  getBean_nullable_normalization [Char.ofNat 120] []
    (fun _ => true) (fun _ => true) rfl

/-- C3: wireFunctionBean fails the pass with the constructor error when
the factory's two-value return carries a non-nil error, fails with the
nil-bean error when the returned primary value is nil, and otherwise
wraps the returned value as a fresh object bean (status Default)
allocated on the heap and wires it recursively. -/
theorem wireFunctionBean_error_policy
    (w : CtxState → Nat → Except (WireError × CtxState) CtxState)
    (s : CtxState) (i : Nat) (bd : BeanDef) :
    (∀ msg, bd.fnErr = some msg →
       wireFunctionBeanAux w s i bd =
         Except.error (WireError.constructorError msg,
           emit s (WireEvent.callFactory i))) ∧
    (bd.fnErr = none → bd.fnRetNil = true →
       wireFunctionBeanAux w s i bd =
         Except.error (WireError.nilBean,
           emit s (WireEvent.callFactory i))) ∧
    (bd.fnErr = none → bd.fnRetNil = false →
       (wrapObjectBean bd).kind = SpringBeanKind.object ∧
       (wrapObjectBean bd).status = BeanStatus.default ∧
       wireFunctionBeanAux w s i bd =
         w { emit s (WireEvent.callFactory i) with
               beans := (emit s (WireEvent.callFactory i)).beans ++
                 [wrapObjectBean bd] }
           (emit s (WireEvent.callFactory i)).beans.length) := by
  refine ⟨?_, ?_, ?_⟩
  · intro msg hmsg
    simp [wireFunctionBeanAux, hmsg]
  · intro hnone hnil
    simp [wireFunctionBeanAux, hnone, hnil]
  · intro hnone hnil
    refine ⟨rfl, rfl, ?_⟩
    simp [wireFunctionBeanAux, hnone, hnil]

theorem wireFunctionBean_error_policy_witness :
    wireFunctionBeanAux (wire 1) initCtx 0
      { dfltBean with fnErr := some "e" } =
      Except.error (WireError.constructorError "e",
        emit initCtx (WireEvent.callFactory 0)) ∧
    wireFunctionBeanAux (wire 1) initCtx 0
      { dfltBean with fnRetNil := true } =
      Except.error (WireError.nilBean,
        emit initCtx (WireEvent.callFactory 0)) :=
  ⟨(wireFunctionBean_error_policy (wire 1) initCtx 0
      { dfltBean with fnErr := some "e" }).1 "e" rfl,
   (wireFunctionBean_error_policy (wire 1) initCtx 0
      { dfltBean with fnRetNil := true }).2.1 rfl rfl⟩

/-- Behaviour of wireBeanDefinition when it re-enters a bean whose
status is already Wiring: after pushing the frame, an object bean
returns immediately and any other kind panics with the
circular-dependency error. -/
theorem wire_wiring_entry (fuel : Nat) (s : CtxState) (i : Nat)
    (hW : (beanAt s i).status = BeanStatus.wiring) :
    wire (fuel + 1) s i =
      if (beanAt s i).kind = SpringBeanKind.object then
        Except.ok (pushStack s i)
      else Except.error (WireError.circularDependency, pushStack s i) := by
  simp [wire, hW]

/-- C1: a re-entrant wireBeanDefinition call on a bean whose status is
Wiring (a detected cycle) succeeds exactly when the bean's provider is
a pre-built object bean; for a constructor or method provider it panics
with the circular-dependency error, and the wiring stack carried by the
panic (from which AutoWireBeans renders the dependency path) is the
current stack with the re-entered bean pushed on top. -/
theorem wire_cycle_tolerated_iff_object (fuel : Nat) (s : CtxState)
    (i : Nat) (hW : (beanAt s i).status = BeanStatus.wiring) :
    ((∃ s1, wire (fuel + 1) s i = Except.ok s1) ↔
       (beanAt s i).kind = SpringBeanKind.object) ∧
    ((beanAt s i).kind ≠ SpringBeanKind.object →
       wire (fuel + 1) s i =
         Except.error (WireError.circularDependency, pushStack s i) ∧
       (pushStack s i).stack = s.stack ++ [i]) := by
  constructor
  · constructor
    · rintro ⟨s1, hs1⟩
      by_contra hk
      rw [wire_wiring_entry fuel s i hW, if_neg hk] at hs1
      cases hs1
    · intro hk
      exact ⟨pushStack s i, by rw [wire_wiring_entry fuel s i hW, if_pos hk]⟩
  · intro hk
    exact ⟨by rw [wire_wiring_entry fuel s i hW, if_neg hk], rfl⟩

/-- Concrete bean for the cycle-detection witness: a constructor
provider already in Wiring status. -/
def cycleWitnessBean : BeanDef :=
  { dfltBean with kind := SpringBeanKind.constructor,
                  status := BeanStatus.wiring, beanId := "c" }

/-- Concrete state for the cycle-detection witness: the bean above,
mid-stack. -/
def cycleWitnessState : CtxState :=
  { beans := [cycleWitnessBean], cache := [], stack := [0],
    events := [] }

theorem wire_cycle_tolerated_iff_object_witness :
    ((∃ s1, wire 1 cycleWitnessState 0 = Except.ok s1) ↔
       (beanAt cycleWitnessState 0).kind = SpringBeanKind.object) ∧
    ((beanAt cycleWitnessState 0).kind ≠ SpringBeanKind.object →
       wire 1 cycleWitnessState 0 =
         Except.error (WireError.circularDependency,
           pushStack cycleWitnessState 0) ∧
       (pushStack cycleWitnessState 0).stack =
         cycleWitnessState.stack ++ [0]) :=
  wire_cycle_tolerated_iff_object 0 cycleWitnessState 0 (by decide)

/-- C9: the tolerated re-entrant call on an object bean in Wiring
status returns right after pushing the frame: the result state keeps
the pushed frame (nothing is popped by that call), its heap is
untouched (so the bean's status is still Wiring, not Wired), and the
only recorded effect is the push notification (no field of the bean is
injected by that call). -/
theorem wire_reentrant_object_frame (fuel : Nat) (s : CtxState) (i : Nat)
    (hW : (beanAt s i).status = BeanStatus.wiring)
    (hK : (beanAt s i).kind = SpringBeanKind.object) :
    wire (fuel + 1) s i = Except.ok (pushStack s i) ∧
    (pushStack s i).beans = s.beans ∧
    (pushStack s i).stack = s.stack ++ [i] ∧
    (pushStack s i).events = s.events ++ [WireEvent.push i] ∧
    (beanAt (pushStack s i) i).status = BeanStatus.wiring := by
  refine ⟨?_, rfl, rfl, rfl, ?_⟩
  · rw [wire_wiring_entry fuel s i hW, if_pos hK]
  · exact hW

/-- Concrete bean for the tolerated-cycle witness: an object provider
already in Wiring status, with one injectable field. -/
def reentrantWitnessBean : BeanDef :=
  { dfltBean with kind := SpringBeanKind.object,
                  status := BeanStatus.wiring, beanId := "o",
                  fields := ["f"] }

/-- Concrete state for the tolerated-cycle witness: the bean above,
mid-stack. -/
def reentrantWitnessState : CtxState :=
  { beans := [reentrantWitnessBean], cache := [], stack := [0],
    events := [] }

theorem wire_reentrant_object_frame_witness :
    wire 1 reentrantWitnessState 0 =
      Except.ok (pushStack reentrantWitnessState 0) ∧
    (pushStack reentrantWitnessState 0).beans =
      reentrantWitnessState.beans ∧
    (pushStack reentrantWitnessState 0).stack =
      reentrantWitnessState.stack ++ [0] ∧
    (pushStack reentrantWitnessState 0).events =
      reentrantWitnessState.events ++ [WireEvent.push 0] ∧
    (beanAt (pushStack reentrantWitnessState 0) 0).status =
      BeanStatus.wiring :=
  wire_reentrant_object_frame 0 reentrantWitnessState 0
    (by decide) (by decide)

theorem alookup_eq_none_of_not_mem_keys {α β : Type} [DecidableEq α]
    (m : List (α × β)) (k : α) (h : k ∉ m.map Prod.fst) :
    alookup k m = none := by
  induction m with
  | nil => rfl
  | cons p rest ih =>
    obtain ⟨k0, v⟩ := p
    simp only [List.map_cons, List.mem_cons] at h
    push_neg at h
    by_cases he : k0 = k
    · exact absurd he.symm h.1
    · simp only [alookup, if_neg he]
      exact ih h.2

theorem alookup_isSome_of_mem_keys {α β : Type} [DecidableEq α]
    (m : List (α × β)) (k : α) (h : k ∈ m.map Prod.fst) :
    ∃ v, alookup k m = some v := by
  induction m with
  | nil => simp at h
  | cons p rest ih =>
    obtain ⟨k0, v⟩ := p
    by_cases he : k0 = k
    · exact ⟨v, by simp [alookup, he]⟩
    · simp only [List.map_cons, List.mem_cons] at h
      rcases h with h | h
      · exact absurd h.symm he
      · simpa [alookup, he] using ih h

theorem sinsert_fresh (m : List (String × BeanDef)) (k : String)
    (v : BeanDef) (h : alookup k m = none) :
    sinsert m k v = m ++ [(k, v)] := by
  induction m with
  | nil => rfl
  | cons p rest ih =>
    obtain ⟨k0, v0⟩ := p
    simp only [alookup] at h
    by_cases he : k0 = k
    · rw [if_pos he] at h
      cases h
    · rw [if_neg he] at h
      simp [sinsert, he, ih h]

theorem beanKeyMapOf_aux (it : List BeanDef)
    (m : List (String × BeanDef))
    (h : (m.map Prod.fst ++ it.map fun bd => bd.beanId).Nodup) :
    it.foldl (fun m0 bd => sinsert m0 bd.beanId bd) m =
      m ++ it.map (fun bd => (bd.beanId, bd)) := by
  induction it generalizing m with
  | nil => simp
  | cons bd rest ih =>
    have hfresh : bd.beanId ∉ m.map Prod.fst := by
      intro hmem
      rw [List.nodup_append] at h
      exact h.2.2 hmem (by simp)
    have hstep : sinsert m bd.beanId bd = m ++ [(bd.beanId, bd)] :=
      sinsert_fresh m bd.beanId bd
        (alookup_eq_none_of_not_mem_keys m bd.beanId hfresh)
    simp only [List.foldl_cons, hstep]
    rw [ih (m ++ [(bd.beanId, bd)]) ?hn]
    · simp
    case hn =>
      simp only [List.map_append, List.map_cons] at h ⊢
      simpa [List.append_assoc] using h

/-- The beanKeyMap over pairwise-distinct BeanIds is the direct
association of each bean to its BeanId. -/
theorem beanKeyMapOf_nodup (it : List BeanDef)
    (h : (it.map fun bd => bd.beanId).Nodup) :
    beanKeyMapOf it = it.map (fun bd => (bd.beanId, bd)) := by
  have := beanKeyMapOf_aux it [] (by simpa using h)
  simpa [beanKeyMapOf] using this

theorem alookup_map_pair (it : List BeanDef) (k : String) (bd : BeanDef)
    (h : alookup k (it.map fun b => (b.beanId, b)) = some bd) :
    bd.beanId = k := by
  induction it with
  | nil => cases h
  | cons b rest ih =>
    simp only [List.map_cons, alookup] at h
    by_cases he : b.beanId = k
    · rw [if_pos he] at h
      cases h
      exact he
    · rw [if_neg he] at h
      exact ih h

theorem filterMap_alookup_keys (m : List (String × BeanDef))
    (h : (m.map Prod.fst).Nodup) :
    (m.map Prod.fst).filterMap (fun id => alookup id m) =
      m.map Prod.snd := by
  induction m with
  | nil => rfl
  | cons p rest ih =>
    obtain ⟨k, v⟩ := p
    simp only [List.map_cons, List.nodup_cons] at h
    have hcongr : ∀ id ∈ rest.map Prod.fst,
        alookup id ((k, v) :: rest) = alookup id rest := by
      intro id hid
      have : k ≠ id := fun he => h.1 (he ▸ hid)
      simp [alookup, this]
    simp only [List.map_cons, List.filterMap_cons]
    rw [show alookup k ((k, v) :: rest) = some v by simp [alookup]]
    rw [List.filterMap_congr hcongr, ih h.2]

theorem filterMap_alookup_map_beanId (ids : List String)
    (m : List (String × BeanDef))
    (h : ∀ id ∈ ids, ∃ bd, alookup id m = some bd ∧ bd.beanId = id) :
    (ids.filterMap (fun id => alookup id m)).map
      (fun bd => bd.beanId) = ids := by
  induction ids with
  | nil => rfl
  | cons id rest ih =>
    obtain ⟨bd, hbd, hid⟩ := h id (by simp)
    simp only [List.filterMap_cons, hbd, List.map_cons, hid]
    rw [ih (fun id0 hid0 => h id0 (by simp [hid0]))]

/-- Concrete bean with BeanId a for the wiring-order analysis. -/
def regOrderBeanA : BeanDef := { dfltBean with beanId := "a" }

/-- Concrete bean with BeanId b for the wiring-order analysis. -/
def regOrderBeanB : BeanDef := { dfltBean with beanId := "b" }

/-- C6 counterexample: with the Sort flag unset, AutoWireBeans iterates
the Go bean map directly, whose iteration order is unspecified, not the
registration order; here the registration sequence is a then b, the
iteration sequence b then a is a valid map iteration (a permutation of
the live beans), and the wiring sequence follows the iteration, not the
registration. -/
theorem autoWire_registration_order_counterexample :
    [regOrderBeanB, regOrderBeanA].Perm [regOrderBeanA, regOrderBeanB] ∧
    autoWireSequence [regOrderBeanB, regOrderBeanA] false ≠
      [regOrderBeanA, regOrderBeanB] := by
  constructor
  · decide
  · decide

/-- C6 (amended): for every valid bean-map iteration sequence (any
permutation of the live registered beans) with pairwise-distinct
BeanIds, the AutoWireBeans wiring loop passes every still-live bean to
wireBeanDefinition exactly once: in the unspecified map-iteration order
when the Sort flag is unset, and in lexicographic order of BeanId when
it is set. -/
theorem autoWire_order_spec (entries it : List BeanDef)
    (hperm : it.Perm entries)
    (hnodup : (entries.map fun bd => bd.beanId).Nodup) :
    (autoWireSequence it false = it ∧
     (autoWireSequence it false).Perm entries) ∧
    ((autoWireSequence it true).Perm entries ∧
     List.Sorted (fun a b : String => a ≤ b)
       ((autoWireSequence it true).map fun bd => bd.beanId)) := by
  have hitn : (it.map fun bd => bd.beanId).Nodup :=
    ((hperm.map fun bd => bd.beanId).nodup_iff).mpr hnodup
  have hm : beanKeyMapOf it = it.map (fun bd => (bd.beanId, bd)) :=
    beanKeyMapOf_nodup it hitn
  have hkeys : (beanKeyMapOf it).map Prod.fst =
      it.map fun bd => bd.beanId := by
    rw [hm, List.map_map]
    rfl
  have hkn : ((beanKeyMapOf it).map Prod.fst).Nodup := by
    rw [hkeys]; exact hitn
  have hperm1 :
      (((beanKeyMapOf it).map Prod.fst).mergeSort
          (fun a b => a ≤ b)).Perm
        ((beanKeyMapOf it).map Prod.fst) :=
    List.mergeSort_perm _ _
  have hseq : autoWireSequence it true =
      (((beanKeyMapOf it).map Prod.fst).mergeSort
          (fun a b => a ≤ b)).filterMap
        (fun id => alookup id (beanKeyMapOf it)) := by
    simp [autoWireSequence]
  refine ⟨⟨by simp [autoWireSequence],
           by simpa [autoWireSequence] using hperm⟩, ?_, ?_⟩
  · have h1 := hperm1.filterMap (fun id => alookup id (beanKeyMapOf it))
    have h2 : ((beanKeyMapOf it).map Prod.fst).filterMap
        (fun id => alookup id (beanKeyMapOf it)) =
        (beanKeyMapOf it).map Prod.snd :=
      filterMap_alookup_keys (beanKeyMapOf it) hkn
    have h3 : (beanKeyMapOf it).map Prod.snd = it := by
      rw [hm, List.map_map]
      exact List.map_id it
    rw [h2, h3] at h1
    rw [hseq]
    exact h1.trans hperm
  · have hforall : ∀ id ∈ ((beanKeyMapOf it).map Prod.fst).mergeSort
        (fun a b => a ≤ b),
        ∃ bd, alookup id (beanKeyMapOf it) = some bd ∧
          bd.beanId = id := by
      intro id hid
      have hmem : id ∈ (beanKeyMapOf it).map Prod.fst :=
        hperm1.mem_iff.mp hid
      obtain ⟨v, hv⟩ := alookup_isSome_of_mem_keys _ id hmem
      refine ⟨v, hv, alookup_map_pair it id v ?_⟩
      rw [← hm]
      exact hv
    have hmapid := filterMap_alookup_map_beanId
      (((beanKeyMapOf it).map Prod.fst).mergeSort (fun a b => a ≤ b))
      (beanKeyMapOf it) hforall
    rw [hseq, hmapid]
    exact List.sorted_mergeSort' _

theorem autoWire_order_spec_witness :
    (autoWireSequence [regOrderBeanB, regOrderBeanA] false =
        [regOrderBeanB, regOrderBeanA] ∧
     (autoWireSequence [regOrderBeanB, regOrderBeanA] false).Perm
        [regOrderBeanA, regOrderBeanB]) ∧
    ((autoWireSequence [regOrderBeanB, regOrderBeanA] true).Perm
        [regOrderBeanA, regOrderBeanB] ∧
     List.Sorted (fun a b : String => a ≤ b)
       ((autoWireSequence [regOrderBeanB, regOrderBeanA] true).map
         fun bd => bd.beanId)) :=
  autoWire_order_spec [regOrderBeanA, regOrderBeanB]
    [regOrderBeanB, regOrderBeanA] (by decide) (by decide)

theorem setStatus_cache (s : CtxState) (i : Nat) (st : BeanStatus) :
    (setStatus s i st).cache = s.cache := by
  rw [setStatus]
  cases s.beans.get? i <;> rfl

theorem setStatus_stack (s : CtxState) (i : Nat) (st : BeanStatus) :
    (setStatus s i st).stack = s.stack := by
  rw [setStatus]
  cases s.beans.get? i <;> rfl

theorem setStatus_length (s : CtxState) (i : Nat) (st : BeanStatus) :
    (setStatus s i st).beans.length = s.beans.length := by
  rw [setStatus]
  cases s.beans.get? i <;> simp

theorem cacheMembers_setStatus (s : CtxState) (i : Nat) (st : BeanStatus) :
    cacheMembers (setStatus s i st) = cacheMembers s := by
  rw [cacheMembers, setStatus_cache]
  rfl

theorem setStatus_of_ge (s : CtxState) (i : Nat) (st : BeanStatus)
    (h : s.beans.length ≤ i) : setStatus s i st = s := by
  rw [setStatus, List.get?_eq_none.mpr h]

theorem beanAt_setStatus_ne (s : CtxState) (i j : Nat) (st : BeanStatus)
    (h : j ≠ i) : beanAt (setStatus s i st) j = beanAt s j := by
  rw [setStatus]
  cases hg : s.beans.get? i with
  | none => rfl
  | some bd =>
    show (s.beans.set i { bd with status := st }).getD j dfltBean = _
    rw [beanAt, List.getD, List.getD, List.get?_eq_getElem?,
      List.get?_eq_getElem?, List.getElem?_set_ne (fun he => h he.symm)]

theorem beanAt_setStatus_self (s : CtxState) (i : Nat) (st : BeanStatus)
    (h : i < s.beans.length) :
    beanAt (setStatus s i st) i = { beanAt s i with status := st } := by
  rw [setStatus]
  cases hg : s.beans.get? i with
  | none =>
    rw [List.get?_eq_getElem?, List.getElem?_eq_none_iff] at hg
    omega
  | some bd =>
    have hbd : bd = beanAt s i := by
      rw [beanAt, List.getD, hg]
      rfl
    show (s.beans.set i { bd with status := st }).getD i dfltBean = _
    rw [List.getD, List.get?_eq_getElem?,
      List.getElem?_set_self (by simpa using h)]
    rw [hbd]
    rfl

theorem beanAt_append (s : CtxState) (l : List BeanDef) (j : Nat)
    (h : j < s.beans.length) :
    ({ s with beans := s.beans ++ l } : CtxState).beans.getD j dfltBean =
      beanAt s j := by
  rw [beanAt, List.getD, List.getD, List.get?_eq_getElem?,
    List.get?_eq_getElem?]
  show (s.beans ++ l)[j]?.getD dfltBean = _
  rw [List.getElem?_append_left h]

theorem cacheInv_congr (s s1 : CtxState) (hb : s1.beans = s.beans)
    (hc : s1.cache = s.cache) (h : CacheInv s) : CacheInv s1 := by
  intro i hi
  rw [cacheMembers, hc] at hi
  rw [beanAt, hb]
  exact h i hi

theorem cacheInv_setStatus (s : CtxState) (i : Nat) (st : BeanStatus)
    (h1 : st ≠ BeanStatus.default) (h2 : st ≠ BeanStatus.deleted)
    (h : CacheInv s) : CacheInv (setStatus s i st) := by
  intro j hj
  rw [cacheMembers_setStatus] at hj
  obtain ⟨hlen, hd1, hd2⟩ := h j hj
  refine ⟨by rw [setStatus_length]; exact hlen, ?_, ?_⟩ <;>
    by_cases hji : j = i
  · subst hji
    rw [beanAt_setStatus_self s j st hlen]
    exact h1
  · rw [beanAt_setStatus_ne s i j st hji]
    exact hd1
  · subst hji
    rw [beanAt_setStatus_self s j st hlen]
    exact h2
  · rw [beanAt_setStatus_ne s i j st hji]
    exact hd2

theorem cacheInv_append (s : CtxState) (l : List BeanDef)
    (h : CacheInv s) : CacheInv { s with beans := s.beans ++ l } := by
  intro j hj
  have hj0 : j ∈ cacheMembers s := hj
  obtain ⟨hlen, hd1, hd2⟩ := h j hj0
  refine ⟨?_, ?_, ?_⟩
  · simp only [List.length_append]
    omega
  · rw [beanAt, beanAt_append s l j hlen]
    exact hd1
  · rw [beanAt, beanAt_append s l j hlen]
    exact hd2

theorem cacheInv_delete_not_mem (s : CtxState) (i : Nat)
    (hnm : i ∉ cacheMembers s) (h : CacheInv s) :
    CacheInv (deleteBeanDefinition s i) := by
  intro j hj
  rw [deleteBeanDefinition, cacheMembers_setStatus] at hj
  obtain ⟨hlen, hd1, hd2⟩ := h j hj
  have hji : j ≠ i := fun he => hnm (he ▸ hj)
  rw [deleteBeanDefinition]
  refine ⟨by rw [setStatus_length]; exact hlen, ?_, ?_⟩ <;>
    rw [beanAt_setStatus_ne s i j _ hji]
  · exact hd1
  · exact hd2

theorem itemMembers_findCacheItemC (cache : List (Nat × List Nat))
    (t : Nat) :
    ((findCacheItemC cache t).map Prod.snd).flatten =
      (cache.map Prod.snd).flatten := by
  rw [findCacheItemC]
  cases alookup t cache <;> simp

theorem mem_flatten_cacheItemStore (cache : List (Nat × List Nat))
    (t i j : Nat)
    (h : j ∈ ((cacheItemStore cache t i).map Prod.snd).flatten) :
    j ∈ (cache.map Prod.snd).flatten ∨ j = i := by
  induction cache with
  | nil => simp [cacheItemStore] at h
  | cons p rest ih =>
    obtain ⟨k0, l⟩ := p
    by_cases he : k0 = t
    · rw [cacheItemStore, if_pos he] at h
      simp only [List.map_cons, List.flatten_cons, List.mem_append] at h ⊢
      rcases h with (h | h) | h
      · exact Or.inl (Or.inl h)
      · simp at h
        exact Or.inr h
      · exact Or.inl (Or.inr h)
    · rw [cacheItemStore, if_neg he] at h
      simp only [List.map_cons, List.flatten_cons, List.mem_append] at h ⊢
      rcases h with h | h
      · exact Or.inl (Or.inl h)
      · rcases ih h with h | h
        · exact Or.inl (Or.inr h)
        · exact Or.inr h

theorem cacheStore_beans (s : CtxState) (t i : Nat) :
    (cacheStore s t i).beans = s.beans := rfl

theorem mem_cacheMembers_cacheStore (s : CtxState) (t i j : Nat)
    (h : j ∈ cacheMembers (cacheStore s t i)) :
    j ∈ cacheMembers s ∨ j = i := by
  rw [cacheMembers, cacheStore] at h
  rcases mem_flatten_cacheItemStore (findCacheItemC s.cache t) t i j h
    with h1 | h1
  · rw [itemMembers_findCacheItemC] at h1
    exact Or.inl h1
  · exact Or.inr h1

theorem cacheInv_cacheStore (s : CtxState) (t i : Nat)
    (hlen : i < s.beans.length)
    (h1 : (beanAt s i).status ≠ BeanStatus.default)
    (h2 : (beanAt s i).status ≠ BeanStatus.deleted)
    (h : CacheInv s) : CacheInv (cacheStore s t i) := by
  intro j hj
  rcases mem_cacheMembers_cacheStore s t i j hj with hm | hm
  · obtain ⟨ha, hb, hc⟩ := h j hm
    exact ⟨ha, hb, hc⟩
  · subst hm
    exact ⟨hlen, h1, h2⟩

/-- Result predicate: the state carried by a normal return or by a
panic satisfies the cache invariant. -/
def ExceptInv : Except (WireError × CtxState) CtxState → Prop
  | Except.ok s1 => CacheInv s1
  | Except.error e => CacheInv e.snd

/-- Result predicate for resolveBean: cache invariant plus frame
relative to the starting state. -/
def ExceptFrameInv (s : CtxState) :
    Except (WireError × CtxState) CtxState → Prop
  | Except.ok s1 => CacheInv s1 ∧ ResolveFrame s s1
  | Except.error e => CacheInv e.snd ∧ ResolveFrame s e.snd

theorem resolveFrame_refl (s : CtxState) : ResolveFrame s s :=
  ⟨rfl, fun _ _ => rfl, fun _ hj => Or.inl hj⟩

theorem resolveFrame_trans (s s1 s2 : CtxState)
    (h1 : ResolveFrame s s1) (h2 : ResolveFrame s1 s2) :
    ResolveFrame s s2 := by
  obtain ⟨hl1, hs1, hm1⟩ := h1
  obtain ⟨hl2, hs2, hm2⟩ := h2
  refine ⟨hl2.trans hl1, ?_, ?_⟩
  · intro j hj
    have he : beanAt s1 j = beanAt s j := hs1 j hj
    have hne : (beanAt s1 j).status ≠ BeanStatus.default := by
      rw [he]; exact hj
    rw [hs2 j hne, he]
  · intro j hj
    rcases hm2 j hj with hj1 | hj1
    · exact hm1 j hj1
    · by_cases hdflt : (beanAt s j).status = BeanStatus.default
      · exact Or.inr hdflt
      · rw [hs1 j hdflt] at hj1
        exact absurd hj1 hdflt

theorem resolveFrame_setStatus (s s2 : CtxState) (i : Nat)
    (st : BeanStatus) (hf : ResolveFrame s s2)
    (hi : (beanAt s i).status = BeanStatus.default) :
    ResolveFrame s (setStatus s2 i st) := by
  obtain ⟨hl, hs, hm⟩ := hf
  refine ⟨by rw [setStatus_length]; exact hl, ?_, ?_⟩
  · intro j hj
    have hji : j ≠ i := fun he => hj (he ▸ hi)
    rw [beanAt_setStatus_ne s2 i j st hji]
    exact hs j hj
  · intro j hj
    rw [cacheMembers_setStatus] at hj
    exact hm j hj

theorem resolveFrame_first (s : CtxState) (i : Nat) (st : BeanStatus)
    (hi : (beanAt s i).status = BeanStatus.default) :
    ResolveFrame s (setStatus s i st) :=
  resolveFrame_setStatus s s i st (resolveFrame_refl s) hi

theorem resolveFrame_cacheStore (s s2 : CtxState) (t i : Nat)
    (hf : ResolveFrame s s2)
    (hi : (beanAt s i).status = BeanStatus.default) :
    ResolveFrame s (cacheStore s2 t i) := by
  obtain ⟨hl, hs, hm⟩ := hf
  refine ⟨hl, fun j hj => hs j hj, ?_⟩
  intro j hj
  rcases mem_cacheMembers_cacheStore s2 t i j hj with h1 | h1
  · exact hm j h1
  · subst h1
    exact Or.inr hi

theorem storeExports_inv (s : CtxState) (i : Nat)
    (hdef : (beanAt s i).status = BeanStatus.default) :
    ∀ (exps : List (Nat × Bool)) (scur : CtxState),
      CacheInv scur → ResolveFrame s scur →
      i < scur.beans.length →
      (beanAt scur i).status = BeanStatus.resolving →
      ExceptFrameInv s (storeExports i scur exps) := by
  intro exps
  induction exps with
  | nil =>
    intro scur h1 h2 _ _
    exact ⟨h1, h2⟩
  | cons p rest ih =>
    intro scur h1 h2 h3 h4
    obtain ⟨t, impl⟩ := p
    cases impl with
    | false =>
      show ExceptFrameInv s (Except.error (WireError.exportMismatch t, scur))
      exact ⟨h1, h2⟩
    | true =>
      show ExceptFrameInv s (storeExports i (cacheStore scur t i) rest)
      refine ih (cacheStore scur t i) ?_ ?_ ?_ ?_
      · refine cacheInv_cacheStore scur t i h3 ?_ ?_ h1 <;> rw [h4] <;> decide
      · exact resolveFrame_cacheStore s scur t i h2 hdef
      · exact h3
      · exact h4

theorem resolveBeanBody_inv (s sb : CtxState) (i : Nat)
    (hinv : CacheInv sb) (hf : ResolveFrame s sb)
    (hdef : (beanAt s i).status = BeanStatus.default)
    (hnm : i ∉ cacheMembers sb)
    (hst : i < s.beans.length →
      (beanAt sb i).status = BeanStatus.resolving) :
    ExceptFrameInv s (resolveBeanBody sb i (beanAt s i)) := by
  rw [resolveBeanBody]
  by_cases hm : (beanAt s i).matchesCtx = false
  · rw [if_pos hm]
    exact ⟨cacheInv_delete_not_mem sb i hnm hinv,
           resolveFrame_setStatus s sb i BeanStatus.deleted hf hdef⟩
  · rw [if_neg hm]
    have hlen : i < s.beans.length := by
      by_contra hge
      have hdb : beanAt s i = dfltBean := by
        rw [beanAt, List.getD, List.get?_eq_getElem?,
          List.getElem?_eq_none_iff.mpr (by omega)]
        rfl
      rw [hdb] at hm
      exact hm rfl
    have hlenb : i < sb.beans.length := by
      rw [hf.1]; exact hlen
    have hres : (beanAt sb i).status = BeanStatus.resolving := hst hlen
    have h1 : CacheInv (cacheStore sb (beanAt s i).typeId i) := by
      refine cacheInv_cacheStore sb _ i hlenb ?_ ?_ hinv <;>
        rw [hres] <;> decide
    have h2 : ResolveFrame s (cacheStore sb (beanAt s i).typeId i) :=
      resolveFrame_cacheStore s sb _ i hf hdef
    have h3 := storeExports_inv s i hdef (beanAt s i).exports
      (cacheStore sb (beanAt s i).typeId i) h1 h2 hlenb hres
    cases hse : storeExports i (cacheStore sb (beanAt s i).typeId i)
        (beanAt s i).exports with
    | ok s2 =>
      rw [hse] at h3
      simp only [hse]
      exact ⟨cacheInv_setStatus s2 i BeanStatus.resolved
               (by decide) (by decide) h3.1,
             resolveFrame_setStatus s s2 i BeanStatus.resolved h3.2 hdef⟩
    | error e =>
      rw [hse] at h3
      simpa only [hse] using h3

theorem resolveBean_inv : ∀ (fuel : Nat) (s : CtxState) (i : Nat),
    CacheInv s → ExceptFrameInv s (resolveBean fuel s i) := by
  intro fuel
  induction fuel with
  | zero =>
    intro s i h
    exact ⟨h, resolveFrame_refl s⟩
  | succ fuel ih =>
    intro s i h
    simp only [resolveBean]
    by_cases hd : (beanAt s i).status ≠ BeanStatus.default
    · rw [if_pos hd]
      exact ⟨h, resolveFrame_refl s⟩
    · push_neg at hd
      rw [if_neg (by simp [hd])]
      have h1 : CacheInv (setStatus s i BeanStatus.resolving) :=
        cacheInv_setStatus s i BeanStatus.resolving
          (by decide) (by decide) h
      have hf1 : ResolveFrame s (setStatus s i BeanStatus.resolving) :=
        resolveFrame_first s i BeanStatus.resolving hd
      have hnmS : i ∉ cacheMembers s := fun hmem => (h i hmem).2.1 hd
      have hnm1 : i ∉ cacheMembers (setStatus s i BeanStatus.resolving) := by
        rw [cacheMembers_setStatus]
        exact hnmS
      have hst1 : i < s.beans.length →
          (beanAt (setStatus s i BeanStatus.resolving) i).status =
            BeanStatus.resolving := by
        intro hl
        rw [beanAt_setStatus_self s i BeanStatus.resolving hl]
      by_cases hk : (beanAt s i).kind = SpringBeanKind.method
      · rw [if_pos hk]
        have hp := ih (setStatus s i BeanStatus.resolving)
          (beanAt s i).parent h1
        cases hres : resolveBean fuel (setStatus s i BeanStatus.resolving)
            (beanAt s i).parent with
        | error e =>
          rw [hres] at hp
          simp only [hres]
          exact ⟨hp.1, resolveFrame_trans s _ e.snd hf1 hp.2⟩
        | ok s2 =>
          rw [hres] at hp
          simp only [hres]
          have h2 : CacheInv s2 := hp.1
          have hf2 : ResolveFrame s s2 :=
            resolveFrame_trans s _ s2 hf1 hp.2
          have hnm2 : i ∉ cacheMembers s2 := by
            intro hmem
            rcases hp.2.2.2 i hmem with hmem1 | hdef1
            · exact hnm1 hmem1
            · by_cases hl : i < s.beans.length
              · rw [hst1 hl] at hdef1
                cases hdef1
              · have hb := (h2 i hmem).1
                have hlen2 : s2.beans.length =
                    (setStatus s i BeanStatus.resolving).beans.length :=
                  hp.2.1
                rw [hlen2, setStatus_length] at hb
                omega
          have hst2 : i < s.beans.length →
              (beanAt s2 i).status = BeanStatus.resolving := by
            intro hl
            have hne : (beanAt (setStatus s i BeanStatus.resolving) i).status ≠
                BeanStatus.default := by
              rw [hst1 hl]
              decide
            rw [hp.2.2.1 i hne, hst1 hl]
          by_cases hpd : (beanAt s2 (beanAt s i).parent).status =
              BeanStatus.deleted
          · rw [if_pos hpd]
            exact ⟨cacheInv_delete_not_mem s2 i hnm2 h2,
                   resolveFrame_setStatus s s2 i BeanStatus.deleted hf2 hd⟩
          · rw [if_neg hpd]
            exact resolveBeanBody_inv s s2 i h2 hf2 hd hnm2 hst2
      · rw [if_neg hk]
        exact resolveBeanBody_inv s (setStatus s i BeanStatus.resolving) i
          h1 hf1 hd hnm1 hst1

theorem popStack_beans (s : CtxState) : (popStack s).beans = s.beans := by
  rw [popStack]
  cases s.stack.getLast? <;> rfl

theorem popStack_cache (s : CtxState) : (popStack s).cache = s.cache := by
  rw [popStack]
  cases s.stack.getLast? <;> rfl

theorem foldl_emit_preserve (i : Nat) :
    ∀ (l : List String) (s : CtxState),
      (l.foldl (fun s1 f => emit s1 (WireEvent.injectField i f)) s).beans =
        s.beans ∧
      (l.foldl (fun s1 f => emit s1 (WireEvent.injectField i f)) s).cache =
        s.cache := by
  intro l
  induction l with
  | nil => intro s; exact ⟨rfl, rfl⟩
  | cons f rest ih =>
    intro s
    exact ih (emit s (WireEvent.injectField i f))

theorem wireDepsAux_inv
    (w : CtxState → Nat → Except (WireError × CtxState) CtxState)
    (hw : ∀ s j, CacheInv s → ExceptInv (w s j)) :
    ∀ (deps : List (Option Nat)) (s : CtxState), CacheInv s →
      ExceptInv (wireDepsAux w s deps) := by
  intro deps
  induction deps with
  | nil => intro s h; exact h
  | cons d rest ih =>
    intro s h
    cases d with
    | none => exact h
    | some j =>
      show ExceptInv (match w s j with
        | Except.ok s1 => wireDepsAux w s1 rest
        | Except.error e => Except.error e)
      cases hres : w s j with
      | ok s1 =>
        have h1 := hw s j h
        rw [hres] at h1
        exact ih s1 h1
      | error e =>
        have h1 := hw s j h
        rw [hres] at h1
        exact h1

theorem wireFunctionBeanAux_inv
    (w : CtxState → Nat → Except (WireError × CtxState) CtxState)
    (hw : ∀ s j, CacheInv s → ExceptInv (w s j))
    (s : CtxState) (i : Nat) (bd : BeanDef) (h : CacheInv s) :
    ExceptInv (wireFunctionBeanAux w s i bd) := by
  have hemit : CacheInv (emit s (WireEvent.callFactory i)) :=
    cacheInv_congr s _ rfl rfl h
  rw [wireFunctionBeanAux]
  cases bd.fnErr with
  | some msg => exact hemit
  | none =>
    by_cases hnil : bd.fnRetNil = true
    · simp only [hnil, if_pos rfl]
      exact hemit
    · have hnil0 : bd.fnRetNil = false := by
        cases hb : bd.fnRetNil
        · rfl
        · exact absurd hb hnil
      simp only [hnil0, Bool.false_eq_true, if_neg]
      refine hw _ _ ?_
      exact cacheInv_append (emit s (WireEvent.callFactory i))
        [wrapObjectBean bd] hemit

theorem wire_cacheInv : ∀ (fuel : Nat) (s : CtxState) (i : Nat),
    CacheInv s → ExceptInv (wire fuel s i) := by
  intro fuel
  induction fuel with
  | zero => intro s i h; exact h
  | succ fuel ih =>
    intro s i h
    simp only [wire]
    by_cases hdel : (beanAt s i).status = BeanStatus.deleted
    · rw [if_pos hdel]; exact h
    · rw [if_neg hdel]
      by_cases hwd : (beanAt s i).status = BeanStatus.wired
      · rw [if_pos hwd]; exact h
      · rw [if_neg hwd]
        have hp : CacheInv (pushStack s i) :=
          cacheInv_congr s _ rfl rfl h
        by_cases hwir : (beanAt s i).status = BeanStatus.wiring
        · rw [if_pos hwir]
          by_cases hk : (beanAt s i).kind = SpringBeanKind.object
          · rw [if_pos hk]; exact hp
          · rw [if_neg hk]; exact hp
        · rw [if_neg hwir]
          have h2 : CacheInv
              (setStatus (pushStack s i) i BeanStatus.wiring) :=
            cacheInv_setStatus _ i _ (by decide) (by decide) hp
          have hdeps := wireDepsAux_inv (wire fuel)
            (fun s0 j0 h0 => ih s0 j0 h0) (beanAt s i).dependsOn _ h2
          cases hres : wireDepsAux (wire fuel)
              (setStatus (pushStack s i) i BeanStatus.wiring)
              (beanAt s i).dependsOn with
          | error e =>
            rw [hres] at hdeps
            simp only [hres]
            exact hdeps
          | ok s3 =>
            rw [hres] at hdeps
            simp only [hres]
            have hpar : ExceptInv
                (if (beanAt s i).kind = SpringBeanKind.method then
                   wire fuel s3 (beanAt s i).parent
                 else Except.ok s3) := by
              by_cases hk : (beanAt s i).kind = SpringBeanKind.method
              · rw [if_pos hk]
                exact ih s3 (beanAt s i).parent hdeps
              · rw [if_neg hk]
                exact hdeps
            cases hres2 : (if (beanAt s i).kind = SpringBeanKind.method then
                wire fuel s3 (beanAt s i).parent
              else Except.ok s3) with
            | error e =>
              rw [hres2] at hpar
              simp only [hres2]
              exact hpar
            | ok s4 =>
              rw [hres2] at hpar
              simp only [hres2]
              have hdisp : ExceptInv
                  (match (beanAt s i).kind with
                   | SpringBeanKind.object =>
                       Except.ok (wireObjectBeanModel s4 i (beanAt s i))
                   | SpringBeanKind.constructor =>
                       wireFunctionBeanAux (wire fuel) s4 i (beanAt s i)
                   | SpringBeanKind.method =>
                       wireFunctionBeanAux (wire fuel) s4 i (beanAt s i)) := by
                cases hbk : (beanAt s i).kind with
                | object =>
                  show ExceptInv (Except.ok (wireObjectBeanModel s4 i
                    (beanAt s i)))
                  have hpres := foldl_emit_preserve i (beanAt s i).fields s4
                  exact cacheInv_congr s4 _ hpres.1 hpres.2 hpar
                | constructor =>
                  exact wireFunctionBeanAux_inv (wire fuel)
                    (fun s0 j0 h0 => ih s0 j0 h0) s4 i (beanAt s i) hpar
                | method =>
                  exact wireFunctionBeanAux_inv (wire fuel)
                    (fun s0 j0 h0 => ih s0 j0 h0) s4 i (beanAt s i) hpar
              cases hres3 : (match (beanAt s i).kind with
                  | SpringBeanKind.object =>
                      Except.ok (wireObjectBeanModel s4 i (beanAt s i))
                  | SpringBeanKind.constructor =>
                      wireFunctionBeanAux (wire fuel) s4 i (beanAt s i)
                  | SpringBeanKind.method =>
                      wireFunctionBeanAux (wire fuel) s4 i (beanAt s i)) with
              | error e =>
                rw [hres3] at hdisp
                simp only [hres3]
                exact hdisp
              | ok s5 =>
                rw [hres3] at hdisp
                simp only [hres3]
                have h6 : CacheInv
                    (if (beanAt s i).hasInit then
                       emit s5 (WireEvent.callInit i)
                     else s5) := by
                  by_cases hin : (beanAt s i).hasInit = true
                  · simp only [hin, if_pos rfl]
                    exact cacheInv_congr s5 _ rfl rfl hdisp
                  · have hin0 : (beanAt s i).hasInit = false := by
                      cases hb : (beanAt s i).hasInit
                      · rfl
                      · exact absurd hb hin
                    simp only [hin0, Bool.false_eq_true, if_neg]
                    exact hdisp
                have h7 : CacheInv (popStack
                    (if (beanAt s i).hasInit then
                       emit s5 (WireEvent.callInit i)
                     else s5)) :=
                  cacheInv_congr _ _ (popStack_beans _) (popStack_cache _) h6
                exact cacheInv_setStatus _ i BeanStatus.wired
                  (by decide) (by decide) h7

/-- C8: at every reachable state of the context, the Bean Cache
contains no bean whose status is Deleted: the only deleting operation,
deleteBeanDefinition inside resolveBean, runs strictly before the cache
insertion for that bean (and only on beans that were still at Default
when resolveBean entered, which the invariant keeps out of the cache),
and no registering or wiring operation deletes a cached bean. -/
theorem cache_never_contains_deleted (s : CtxState) (i : Nat)
    (hr : Reachable s) (hi : i ∈ cacheMembers s) :
    (beanAt s i).status ≠ BeanStatus.deleted := by
  have hinv : CacheInv s := by
    clear hi
    induction hr with
    | init =>
      intro j hj
      simp [cacheMembers, initCtx] at hj
    | step hr hstep ih =>
      cases hstep with
      | register bd hbd => exact cacheInv_append _ [bd] ih
      | resolveOk fuel i0 s1 hres =>
        have hp := resolveBean_inv fuel _ i0 ih
        rw [hres] at hp
        exact hp.1
      | resolveErr fuel i0 e s1 hres =>
        have hp := resolveBean_inv fuel _ i0 ih
        rw [hres] at hp
        exact hp.1
      | wireOk fuel i0 s1 hres =>
        have hp := wire_cacheInv fuel _ i0 ih
        rw [hres] at hp
        exact hp
      | wireErr fuel i0 e s1 hres =>
        have hp := wire_cacheInv fuel _ i0 ih
        rw [hres] at hp
        exact hp
  exact (hinv i hi).2.2

/-- Concrete bean for the reachability witness: an object bean whose
Matches check passes. -/
def resolveWitnessBean : BeanDef :=
  { dfltBean with matchesCtx := true, typeId := 3, beanId := "w" }

/-- State after registering the witness bean. -/
def resolveWitnessStart : CtxState :=
  { beans := [resolveWitnessBean], cache := [], stack := [],
    events := [] }

/-- The witness bean once resolved. -/
def resolveWitnessBeanDone : BeanDef :=
  { resolveWitnessBean with status := BeanStatus.resolved }

/-- State after resolving the witness bean: it sits in the cache under
its type. -/
def resolveWitnessEnd : CtxState :=
  { beans := [resolveWitnessBeanDone], cache := [(3, [0])],
    stack := [], events := [] }

theorem resolveWitness_reachable : Reachable resolveWitnessEnd :=
  Reachable.step
    (Reachable.step Reachable.init
      (CtxStep.register initCtx resolveWitnessBean rfl))
    (CtxStep.resolveOk resolveWitnessStart 1 0 resolveWitnessEnd rfl)

theorem cache_never_contains_deleted_witness :
    (beanAt resolveWitnessEnd 0).status ≠ BeanStatus.deleted :=
  cache_never_contains_deleted resolveWitnessEnd 0
    resolveWitness_reachable (by decide)

end SpringCore
